import Mathlib

/-!
Verification of `check_clientes.py` (client-in-sales-zone checker).

The script parses client GPS coordinate strings, loads zone polygons from a
KML file, and annotates each client record with a boolean membership flag
computed by a ray-casting point-in-polygon test.

Modelling conventions used throughout this development:

* Python `float` values produced by the built-in `float(str)` conversion are
  modelled by `PyFloat`: either an exact rational (`finite`), or one of the
  special values `inf`, `neginf`, `nan` that Python's `float()` accepts via
  the literals "inf" / "infinity" / "nan" (case-insensitive, optionally
  signed).  In-range rounding of decimal literals to binary double precision
  is not modelled (in-range values are kept as exact rationals), but the
  overflow of `float(str)` to an infinity IS modelled: a decimal literal
  whose magnitude reaches the IEEE double round-to-nearest overflow boundary
  2^1024 - 2^970 converts to `inf`/`neginf`, as `float("1e999")` does.
  Underflow of tiny literals to 0.0 stays a (finite) rational, and underscore
  digit separators of Python numeric literals are not modelled.
* The geometry layer (`Point`, `Polygon`, `Polygon.contains_point`,
  `point_in_any_polygon`) works over exact rationals `ℚ`: the claims about
  the ray-casting code are structural (branch and parity behaviour) and do
  not depend on floating-point rounding.
* Strings are processed as `List Char` (via `String.toList`), with splitting
  helpers written to match the semantics of Python's `str.split`.
-/

/-- Result of Python's `float(str)`: a finite value (kept exact as a
rational), positive or negative infinity, or NaN. -/
inductive PyFloat : Type where
  | finite (q : ℚ) : PyFloat
  | inf : PyFloat
  | neginf : PyFloat
  | nan : PyFloat
deriving DecidableEq

/-- A `PyFloat` is finite when it carries a rational value. -/
def PyFloat.isFinite : PyFloat → Bool
  | .finite _ => true
  | _ => false

/-- Split a character list at every occurrence of `sep`, accumulator form.
Matches Python's `str.split(sep)`: the empty string yields `[""]`, and
adjacent separators yield empty fields. -/
def splitOnCharAux (sep : Char) : List Char → List Char → List (List Char)
  | [], acc => [acc.reverse]
  | c :: rest, acc =>
    if c = sep then acc.reverse :: splitOnCharAux sep rest []
    else splitOnCharAux sep rest (c :: acc)

/-- Python's `str.split(sep)` on character lists. -/
def splitOnChar (sep : Char) (l : List Char) : List (List Char) :=
  splitOnCharAux sep l []

/-- Accumulator form of whitespace splitting. -/
def splitWsAux : List Char → List Char → List (List Char)
  | [], acc => if acc.isEmpty then [] else [acc.reverse]
  | c :: rest, acc =>
    if c.isWhitespace then
      if acc.isEmpty then splitWsAux rest [] else acc.reverse :: splitWsAux rest []
    else splitWsAux rest (c :: acc)

/-- Python's no-argument `str.split()`: split on runs of whitespace,
producing no empty tokens. -/
def splitWs (l : List Char) : List (List Char) :=
  splitWsAux l []

/-- Remove leading and trailing whitespace (Python's `str.strip()`, as
performed implicitly by `float(str)` on its argument). -/
def stripWs (l : List Char) : List Char :=
  ((l.dropWhile Char.isWhitespace).reverse.dropWhile Char.isWhitespace).reverse

/-- Strip one optional leading sign; returns (isNegative, rest). -/
def signSplit : List Char → Bool × List Char
  | '-' :: rest => (true, rest)
  | '+' :: rest => (false, rest)
  | l => (false, l)

/-- Numeric value of a list of decimal digit characters (empty list gives 0). -/
def digitsToNat (l : List Char) : Nat :=
  l.foldl (fun acc c => 10 * acc + (c.toNat - '0'.toNat)) 0

/-- All characters are ASCII decimal digits. -/
def allDigits (l : List Char) : Bool :=
  l.all Char.isDigit

/-- Split a numeric literal at the first exponent marker `e`/`E`:
returns the mantissa part and, when a marker is present, the exponent part. -/
def splitExp : List Char → List Char × Option (List Char)
  | [] => ([], none)
  | c :: rest =>
    if c = 'e' ∨ c = 'E' then ([], some rest)
    else
      let p := splitExp rest
      (c :: p.1, p.2)

/-- Parse an exponent: optional sign followed by at least one digit. -/
def parseExp (l : List Char) : Option Int :=
  let s := signSplit l
  if s.2.isEmpty then none
  else if allDigits s.2 then
    some (if s.1 then -(digitsToNat s.2 : Int) else (digitsToNat s.2 : Int))
  else none

/-- Parse an unsigned decimal mantissa `digits[.digits]` (at least one digit
overall, as Python's `float` requires). -/
def parseMantissa (l : List Char) : Option ℚ :=
  match splitOnChar '.' l with
  | [ip] =>
    if ip.isEmpty then none
    else if allDigits ip then some ((digitsToNat ip : ℚ)) else none
  | [ip, fp] =>
    if ip.isEmpty ∧ fp.isEmpty then none
    else if allDigits ip ∧ allDigits fp then
      some ((digitsToNat ip : ℚ) + (digitsToNat fp : ℚ) / (10 : ℚ) ^ fp.length)
    else none
  | _ => none

/-- Parse an unsigned decimal literal with optional exponent. -/
def pyDecimal (l : List Char) : Option ℚ :=
  match splitExp l with
  | (m, none) => parseMantissa m
  | (m, some e) =>
    match parseMantissa m, parseExp e with
    | some q, some ex =>
      some (if 0 ≤ ex then q * (10 : ℚ) ^ ex.toNat else q / (10 : ℚ) ^ (-ex).toNat)
    | _, _ => none

/-- The token (after stripping whitespace and one optional sign) is one of
Python's special float literals `inf`, `infinity`, `nan` (case-insensitive). -/
def isSpecialFloatLit (l : List Char) : Bool :=
  let rl := (signSplit (stripWs l)).2.map Char.toLower
  decide (rl = ['i', 'n', 'f'] ∨ rl = ['i', 'n', 'f', 'i', 'n', 'i', 't', 'y'] ∨
    rl = ['n', 'a', 'n'])

/-- The overflow boundary of IEEE double round-to-nearest: an exact decimal
magnitude of at least `2^1024 - 2^970` (half an ulp above the largest finite
double `2^1024 - 2^971`) converts to an infinity; anything below it rounds to
a finite double. -/
def doubleOverflowThreshold : ℚ := 2 ^ 1024 - 2 ^ 970

/-- Model of Python's built-in `float(str)` conversion, as used by
`parse_client_coordinates` and `parse_kml_coordinates`: strip whitespace,
strip one optional sign, accept `inf` / `infinity` / `nan` case-insensitively,
otherwise parse a decimal literal, overflowing to a (signed) infinity at the
double overflow boundary -- `float("1e999")` is `inf`, not an error; `none`
models a raised `ValueError`. -/
def pyFloatOfChars (l : List Char) : Option PyFloat :=
  let s := signSplit (stripWs l)
  let rl := s.2.map Char.toLower
  if rl = ['i', 'n', 'f'] ∨ rl = ['i', 'n', 'f', 'i', 'n', 'i', 't', 'y'] then
    some (if s.1 then PyFloat.neginf else PyFloat.inf)
  else if rl = ['n', 'a', 'n'] then some PyFloat.nan
  else
    (pyDecimal s.2).map (fun q =>
      if doubleOverflowThreshold ≤ q then (if s.1 then PyFloat.neginf else PyFloat.inf)
      else PyFloat.finite (if s.1 then -q else q))

/-- The token parses as a decimal whose magnitude reaches the double overflow
boundary (so `float` returns an infinity for it). -/
def overflowsDouble (t : List Char) : Bool :=
  match pyDecimal (signSplit (stripWs t)).2 with
  | some q => decide (doubleOverflowThreshold ≤ q)
  | none => false

/-- The `Point` class of `check_clientes.py` as produced by the coordinate
parser: `lon` and `lat` are Python floats (`PyFloat` here). -/
structure PointF where
  lon : PyFloat
  lat : PyFloat
deriving DecidableEq

/-- `parse_client_coordinates` (check_clientes.py lines 85-98): `none` input
models a `pd.isna` value; the string is split on `','`; the unpacking
`lat, lon = map(float, ...)` succeeds exactly when there are two tokens and
both convert, and the `Point` is built as `Point(lon, lat)` (order swap);
every failure is caught by the bare `except` and returns `None`. -/
def parse_client_coordinates (input : Option String) : Option PointF :=
  match input with
  | none => none
  | some s =>
    match splitOnChar ',' s.toList with
    | [latTok, lonTok] =>
      match pyFloatOfChars latTok, pyFloatOfChars lonTok with
      | some lat, some lon => some ⟨lon, lat⟩
      | _, _ => none
    | _ => none

/-- One token of a KML coordinate string (check_clientes.py lines 54-61):
split on `','`; if there are at least two fields, convert the first two with
`float`; a conversion failure (`ValueError`) skips the token. -/
def parseKmlToken (tok : List Char) : Option (PyFloat × PyFloat) :=
  match splitOnChar ',' tok with
  | p0 :: p1 :: _ =>
    match pyFloatOfChars p0, pyFloatOfChars p1 with
    | some lon, some lat => some (lon, lat)
    | _, _ => none
  | _ => none

/-- `parse_kml_coordinates` (check_clientes.py lines 48-62): strip the
string, split on whitespace, keep the tokens that parse as `lon,lat[,...]`
pairs. -/
def parse_kml_coordinates (s : List Char) : List (PyFloat × PyFloat) :=
  (splitWs s).filterMap parseKmlToken

/-- `load_kml_polygons` (check_clientes.py lines 64-83).  The XML traversal
(`ET.parse`, `findall`, `find`) is abstracted to its result: the list, in
document order, of the text content of each KML Polygon's outer-boundary
`coordinates` element (`none` when the element is absent or has no text).
A boundary whose text is empty is skipped (`and outer_boundary.text`, empty
string falsy); a parsed ring is kept only when it has at least 3 vertices. -/
def load_kml_polygons (boundaries : List (Option (List Char))) :
    List (List (PyFloat × PyFloat)) :=
  boundaries.filterMap (fun ob =>
    match ob with
    | none => none
    | some text =>
      if text.isEmpty then none
      else
        let coords := parse_kml_coordinates text
        if 3 ≤ coords.length then some coords else none)

/-- The `Point` class of `check_clientes.py` (lines 11-18) at the geometry
layer: coordinates modelled as exact rationals. -/
structure Point where
  lon : ℚ
  lat : ℚ

/-- The `Polygon` class of `check_clientes.py` (lines 20-23): an ordered
ring of vertices stored as coordinate tuples. -/
structure Polygon where
  coordinates : List (ℚ × ℚ)

/-- The body of one iteration of the loop in `Polygon.contains_point`
(check_clientes.py lines 36-44): the nested guards, with the x-intersection
formula inlined at its (only) use site; see `crossStepChecked` and
`contains_point_checked_ok` for the faithful treatment of the conditional
assignment of `xinters`. -/
def crossStep (point : Point) (p1 p2 : ℚ × ℚ) (inside : Bool) : Bool :=
  if point.lat > min p1.2 p2.2 then
    if point.lat ≤ max p1.2 p2.2 then
      if point.lon ≤ max p1.1 p2.1 then
        if p1.1 = p2.1 ∨
            point.lon ≤ (point.lat - p1.2) * (p2.1 - p1.1) / (p2.2 - p1.2) + p1.1 then
          !inside
        else inside
      else inside
    else inside
  else inside

/-- The loop of `Polygon.contains_point`: `p1` is the current edge start and
the list holds the successive edge ends `coordinates[i % n]` for
`i = 1, ..., n`. -/
def containsGo (point : Point) : ℚ × ℚ → List (ℚ × ℚ) → Bool → Bool
  | _, [], inside => inside
  | p1, p2 :: rest, inside => containsGo point p2 rest (crossStep point p1 p2 inside)

/-- `Polygon.contains_point` (check_clientes.py lines 25-46): ray casting.
`p1` starts at `coordinates[0]` and the loop visits `coordinates[i % n]`
for `i = 1, ..., n`, i.e. `rest ++ [c0]`.  The empty-coordinate case (where
the Python code would raise `IndexError` on `coordinates[0]`) is mapped to
`false`; `Polygon.contains_point_checked` models the error explicitly. -/
def Polygon.contains_point (poly : Polygon) (point : Point) : Bool :=
  match poly.coordinates with
  | [] => false
  | c0 :: rest => containsGo point c0 (rest ++ [c0]) false

/-- One loop iteration with Python's name-binding semantics made explicit:
the state is (inside, current binding of `xinters`); `xinters` is assigned
only when `p1y != p2y`, the division raises `ZeroDivisionError` when its
divisor is zero, and reading an unbound `xinters` (reached only when
`p1x != p2x`, by `or` short-circuit) raises `NameError`. -/
def crossStepChecked (point : Point) (p1 p2 : ℚ × ℚ) (st : Bool × Option ℚ) :
    Except String (Bool × Option ℚ) :=
  if point.lat > min p1.2 p2.2 then
    if point.lat ≤ max p1.2 p2.2 then
      if point.lon ≤ max p1.1 p2.1 then
        if p1.2 ≠ p2.2 then
          if p2.2 - p1.2 = 0 then .error "ZeroDivisionError"
          else
            if p1.1 = p2.1 then
              .ok (!st.1, some ((point.lat - p1.2) * (p2.1 - p1.1) / (p2.2 - p1.2) + p1.1))
            else if point.lon ≤ (point.lat - p1.2) * (p2.1 - p1.1) / (p2.2 - p1.2) + p1.1 then
              .ok (!st.1, some ((point.lat - p1.2) * (p2.1 - p1.1) / (p2.2 - p1.2) + p1.1))
            else
              .ok (st.1, some ((point.lat - p1.2) * (p2.1 - p1.1) / (p2.2 - p1.2) + p1.1))
        else
          if p1.1 = p2.1 then .ok (!st.1, st.2)
          else
            match st.2 with
            | none => .error "NameError"
            | some v => if point.lon ≤ v then .ok (!st.1, st.2) else .ok (st.1, st.2)
      else .ok st
    else .ok st
  else .ok st

/-- The loop of `Polygon.contains_point` with explicit error propagation. -/
def containsGoChecked (point : Point) :
    ℚ × ℚ → List (ℚ × ℚ) → Bool × Option ℚ → Except String (Bool × Option ℚ)
  | _, [], st => .ok st
  | p1, p2 :: rest, st =>
    (crossStepChecked point p1 p2 st).bind (containsGoChecked point p2 rest)

/-- `Polygon.contains_point` with all Python runtime hazards explicit:
`IndexError` on an empty vertex list, `NameError` on a read of an unbound
`xinters`, `ZeroDivisionError` on a zero divisor. -/
def Polygon.contains_point_checked (poly : Polygon) (point : Point) :
    Except String Bool :=
  match poly.coordinates with
  | [] => .error "IndexError"
  | c0 :: rest => (containsGoChecked point c0 (rest ++ [c0]) (false, none)).map Prod.fst

/-- `point_in_any_polygon` (check_clientes.py lines 100-108): `None` yields
`false`; otherwise the polygons are tried in order with an early `return True`
on the first match (`List.any` is the left-to-right short-circuiting fold). -/
def point_in_any_polygon (point : Option Point) (polygons : List Polygon) : Bool :=
  match point with
  | none => false
  | some p => polygons.any (fun polygon => polygon.contains_point p)

/-- The edge crossing condition of the ray-casting loop, flattened to a
single predicate over an edge `(p1, p2)` (check_clientes.py lines 37-43):
over the exact rationals the inlined x-intersection formula is total, and
when `p1.y = p2.y` the y-range conjunct is already false, so flattening is
faithful. -/
def crossesRay (point : Point) (e : (ℚ × ℚ) × (ℚ × ℚ)) : Bool :=
  decide (point.lat > min e.1.2 e.2.2 ∧ point.lat ≤ max e.1.2 e.2.2 ∧
    point.lon ≤ max e.1.1 e.2.1 ∧
    (e.1.1 = e.2.1 ∨
      point.lon ≤ (point.lat - e.1.2) * (e.2.1 - e.1.1) / (e.2.2 - e.1.2) + e.1.1))

/-- Consecutive pairs of a chain starting at `p1`. -/
def chainPairs {α : Type} (p1 : α) : List α → List (α × α)
  | [] => []
  | p2 :: rest => (p1, p2) :: chainPairs p2 rest

/-- The edges of the closed ring on a vertex list, wrapping last to first:
exactly the (p1, p2) pairs visited by the loop of `Polygon.contains_point`. -/
def ringPairs {α : Type} : List α → List (α × α)
  | [] => []
  | c0 :: rest => chainPairs c0 (rest ++ [c0])

/-- The last element of a list, with a default for the empty list. -/
def lastD {α : Type} : List α → α → α
  | [], d => d
  | x :: xs, _ => lastD xs x

/-- The row-wise client annotation of `main` (check_clientes.py line 135):
`df[_point] = df[Punto gps].apply(parse_client_coordinates)`. -/
def add_point_column {α : Type} (gpsCol : α → Option String) (rows : List α) :
    List (α × Option PointF) :=
  rows.map (fun r => (r, parse_client_coordinates (gpsCol r)))

/-- `df[Inside_Zone] = df[_point].apply(lambda p: point_in_any_polygon(p, polygons))`
(check_clientes.py line 143), with the zone membership function abstracted as
`zoneTest` (in the script, `point_in_any_polygon` applied to the loaded
polygons). -/
def add_inside_zone_column {α : Type} (zoneTest : Option PointF → Bool)
    (rows : List (α × Option PointF)) : List ((α × Option PointF) × Bool) :=
  rows.map (fun r => (r, zoneTest r.2))

/-- `output_df = df.drop(columns=[_point])` (check_clientes.py line 156):
the helper point column is removed, keeping the original columns and the
appended boolean column. -/
def drop_point_column {α : Type} (rows : List ((α × Option PointF) × Bool)) :
    List (α × Bool) :=
  rows.map (fun r => (r.1.1, r.2))

/-- The row pipeline of `main` (check_clientes.py lines 118-158), file and
console I/O abstracted: each row consists of its original columns (`α`) and
its `Punto gps` field is read by `gpsCol`. -/
def main_pipeline {α : Type} (gpsCol : α → Option String)
    (zoneTest : Option PointF → Bool) (rows : List α) : List (α × Bool) :=
  drop_point_column (add_inside_zone_column zoneTest (add_point_column gpsCol rows))

/-- One loop iteration toggles the flag exactly when the flattened crossing
predicate holds. -/
lemma crossStep_eq_xor (point : Point) (p1 p2 : ℚ × ℚ) (inside : Bool) :
    crossStep point p1 p2 inside = Bool.xor inside (crossesRay point (p1, p2)) := by
  unfold crossStep crossesRay
  split_ifs with h1 h2 h3 h4
  · rw [decide_eq_true ⟨h1, h2, h3, h4⟩, Bool.xor_true]
  · rw [decide_eq_false (fun hc => h4 hc.2.2.2), Bool.xor_false]
  · rw [decide_eq_false (fun hc => h3 hc.2.2.1), Bool.xor_false]
  · rw [decide_eq_false (fun hc => h2 hc.2.1), Bool.xor_false]
  · rw [decide_eq_false (fun hc => h1 hc.1), Bool.xor_false]

/-- The loop is the fold of the iteration body over the chain of edges. -/
lemma containsGo_eq_foldl (point : Point) :
    ∀ (l : List (ℚ × ℚ)) (p1 : ℚ × ℚ) (b : Bool),
      containsGo point p1 l b =
        List.foldl (fun ins e => crossStep point e.1 e.2 ins) b (chainPairs p1 l) := by
  intro l
  induction l with
  | nil => intro p1 b; rfl
  | cons p2 rest ih => intro p1 b; simp [containsGo, chainPairs, ih]

/-- Negation moves across an xor. -/
lemma bool_xor_not (x y : Bool) : Bool.xor (!x) y = Bool.xor x (!y) := by
  cases x <;> cases y <;> rfl

/-- Folding an xor-toggle over a list computes the parity of the number of
elements satisfying the predicate. -/
lemma foldl_xor_parity {β : Type} (p : β → Bool) :
    ∀ (l : List β) (b : Bool),
      List.foldl (fun acc e => Bool.xor acc (p e)) b l =
        Bool.xor b (decide (Odd (l.countP p))) := by
  intro l
  induction l with
  | nil => intro b; simp
  | cons e l ih =>
    intro b
    rw [List.foldl_cons, ih, List.countP_cons]
    by_cases hp : p e = true
    · rw [hp, Bool.xor_true, if_pos rfl]
      simp only [Nat.odd_add_one, decide_not]
      exact bool_xor_not b _
    · simp [hp]

/-- Shared helper: the ray-casting result is the parity of the number of ring
edges satisfying the crossing predicate. -/
lemma contains_point_parity (poly : Polygon) (point : Point) :
    poly.contains_point point =
      decide (Odd (List.countP (crossesRay point) (ringPairs poly.coordinates))) := by
  obtain ⟨coords⟩ := poly
  cases coords with
  | nil => simp [Polygon.contains_point, ringPairs, Nat.odd_iff]
  | cons c0 rest =>
    show containsGo point c0 (rest ++ [c0]) false = _
    rw [containsGo_eq_foldl]
    have hfun : (fun (ins : Bool) (e : (ℚ × ℚ) × (ℚ × ℚ)) => crossStep point e.1 e.2 ins) =
        fun ins e => Bool.xor ins (crossesRay point e) := by
      funext ins e
      rw [crossStep_eq_xor]
    rw [hfun, foldl_xor_parity]
    simp [ringPairs]

/-- C1: For every polygon (ordered vertex list) and every point,
`Polygon.contains_point` returns true iff an odd number of edges of the ring,
wrapping last to first, satisfy the crossing condition (y strictly above the
lower y-extreme and at most the upper one, x at most the larger edge x, and
the edge vertical or x at most the ray/edge x-intersection); each qualifying
crossing toggles an inside flag that starts at false and is the result. -/
theorem contains_point_iff_odd_crossings (poly : Polygon) (point : Point) :
    poly.contains_point point =
      decide (Odd (List.countP (crossesRay point) (ringPairs poly.coordinates))) :=
  contains_point_parity poly point

/-- Appending one element to a chain appends the edge from the chain's last
vertex. -/
lemma chainPairs_snoc {α : Type} :
    ∀ (l : List α) (a b : α),
      chainPairs a (l ++ [b]) = chainPairs a l ++ [(lastD l a, b)] := by
  intro l
  induction l with
  | nil => intro a b; rfl
  | cons x xs ih => intro a b; simp [chainPairs, lastD, ih]

/-- The last element of a list ending in `b` is `b`. -/
lemma lastD_concat {α : Type} : ∀ (l : List α) (b d : α), lastD (l ++ [b]) d = b := by
  intro l
  induction l with
  | nil => intro b d; rfl
  | cons x xs ih => intro b d; simp [lastD, ih]

/-- Rotating the vertex ring by one permutes its edge list. -/
lemma ringPairs_rotate_one_perm {α : Type} (l : List α) :
    (ringPairs (l.rotate 1)).Perm (ringPairs l) := by
  cases l with
  | nil => rw [List.rotate_nil]
  | cons c0 rest =>
    have hrot : (c0 :: rest).rotate 1 = rest ++ [c0] := by
      rw [List.rotate_cons_succ, List.rotate_zero]
    rw [hrot]
    cases rest with
    | nil => exact List.Perm.refl _
    | cons r0 rs =>
      show (ringPairs (r0 :: (rs ++ [c0]))).Perm (ringPairs (c0 :: r0 :: rs))
      show (chainPairs r0 ((rs ++ [c0]) ++ [r0])).Perm (chainPairs c0 (r0 :: rs ++ [c0]))
      rw [chainPairs_snoc, lastD_concat]
      exact List.perm_append_singleton _ _

/-- Rotating the vertex ring by any amount permutes its edge list. -/
lemma ringPairs_rotate_perm {α : Type} (k : ℕ) (l : List α) :
    (ringPairs (l.rotate k)).Perm (ringPairs l) := by
  induction k with
  | zero => rw [List.rotate_zero]
  | succ n ih =>
    have h : l.rotate (n + 1) = (l.rotate n).rotate 1 := (List.rotate_rotate l n 1).symm
    rw [h]
    exact (ringPairs_rotate_one_perm (l.rotate n)).trans ih

/-- C6: `Polygon.contains_point` is invariant under cyclic rotation of the
vertex list: starting the ring at any other vertex yields the same
containment result. -/
theorem contains_point_rotate_invariant (poly : Polygon) (point : Point) (k : ℕ) :
    Polygon.contains_point ⟨poly.coordinates.rotate k⟩ point =
      poly.contains_point point := by
  rw [contains_point_parity, contains_point_parity]
  have hc : List.countP (crossesRay point) (ringPairs (poly.coordinates.rotate k)) =
      List.countP (crossesRay point) (ringPairs poly.coordinates) :=
    (ringPairs_rotate_perm k poly.coordinates).countP_eq _
  rw [hc]

/-- C5: a degenerate horizontal edge (`p1.y = p2.y`) never toggles the inside
flag: the y-range guard cannot hold with both bounds equal, so the loop body
leaves the flag unchanged and the crossing predicate is false. -/
theorem horizontal_edge_no_crossing (point : Point) (p1 p2 : ℚ × ℚ) (inside : Bool)
    (h : p1.2 = p2.2) :
    crossStep point p1 p2 inside = inside ∧ crossesRay point (p1, p2) = false := by
  constructor
  · unfold crossStep
    split_ifs with h1 h2 h3 h4 <;> try rfl
    rw [h, min_self] at h1
    rw [h, max_self] at h2
    exact absurd h2 (not_le.mpr h1)
  · unfold crossesRay
    rw [h, min_self, max_self]
    simp only [decide_eq_false_iff_not]
    rintro ⟨h1, h2, -, -⟩
    exact absurd h2 (not_le.mpr h1)

/-- Witness for C5 at a concrete horizontal edge and point. -/
theorem horizontal_edge_no_crossing_witness :
    crossStep ⟨1, 1⟩ (0, 0) (5, 0) true = true ∧
      crossesRay ⟨1, 1⟩ ((0, 0), (5, 0)) = false :=
  horizontal_edge_no_crossing ⟨1, 1⟩ (0, 0) (5, 0) true rfl

/-- One checked iteration never errors and computes the same flag as the
plain iteration: past the y-range guard the edge cannot be horizontal, so
`xinters` is freshly assigned before any read and the divisor is nonzero. -/
lemma crossStepChecked_ok (point : Point) (p1 p2 : ℚ × ℚ) (b : Bool) (xi : Option ℚ) :
    ∃ xi2, crossStepChecked point p1 p2 (b, xi) =
      Except.ok (crossStep point p1 p2 b, xi2) := by
  by_cases h1 : point.lat > min p1.2 p2.2
  · by_cases h2 : point.lat ≤ max p1.2 p2.2
    · by_cases h3 : point.lon ≤ max p1.1 p2.1
      · have h4 : p1.2 ≠ p2.2 := by
          intro he
          rw [he, min_self] at h1
          rw [he, max_self] at h2
          exact absurd h2 (not_le.mpr h1)
        have h5 : ¬(p2.2 - p1.2 = 0) := fun hz => h4 (sub_eq_zero.mp hz).symm
        by_cases h6 : p1.1 = p2.1
        · refine ⟨some ((point.lat - p1.2) * (p2.1 - p1.1) / (p2.2 - p1.2) + p1.1), ?_⟩
          unfold crossStepChecked crossStep
          simp only [if_pos h1, if_pos h2, if_pos h3, if_pos h4, if_neg h5, if_pos h6,
            if_pos (Or.inl h6 : p1.1 = p2.1 ∨ point.lon ≤
              (point.lat - p1.2) * (p2.1 - p1.1) / (p2.2 - p1.2) + p1.1)]
        · by_cases h7 : point.lon ≤ (point.lat - p1.2) * (p2.1 - p1.1) / (p2.2 - p1.2) + p1.1
          · refine ⟨some ((point.lat - p1.2) * (p2.1 - p1.1) / (p2.2 - p1.2) + p1.1), ?_⟩
            unfold crossStepChecked crossStep
            simp only [if_pos h1, if_pos h2, if_pos h3, if_pos h4, if_neg h5, if_neg h6,
              if_pos h7, if_pos (Or.inr h7 : p1.1 = p2.1 ∨ point.lon ≤
                (point.lat - p1.2) * (p2.1 - p1.1) / (p2.2 - p1.2) + p1.1)]
          · refine ⟨some ((point.lat - p1.2) * (p2.1 - p1.1) / (p2.2 - p1.2) + p1.1), ?_⟩
            unfold crossStepChecked crossStep
            simp only [if_pos h1, if_pos h2, if_pos h3, if_pos h4, if_neg h5, if_neg h6,
              if_neg h7, if_neg (fun hor => hor.elim h6 h7 : ¬(p1.1 = p2.1 ∨ point.lon ≤
                (point.lat - p1.2) * (p2.1 - p1.1) / (p2.2 - p1.2) + p1.1))]
      · refine ⟨xi, ?_⟩
        unfold crossStepChecked crossStep
        simp only [if_pos h1, if_pos h2, if_neg h3]
    · refine ⟨xi, ?_⟩
      unfold crossStepChecked crossStep
      simp only [if_pos h1, if_neg h2]
  · refine ⟨xi, ?_⟩
    unfold crossStepChecked crossStep
    simp only [if_neg h1]

/-- The checked loop never errors, whatever the current binding of
`xinters`, and computes the plain loop's flag. -/
lemma containsGoChecked_ok (point : Point) :
    ∀ (l : List (ℚ × ℚ)) (p1 : ℚ × ℚ) (b : Bool) (xi : Option ℚ),
      ∃ xi2, containsGoChecked point p1 l (b, xi) =
        Except.ok (containsGo point p1 l b, xi2) := by
  intro l
  induction l with
  | nil => intro p1 b xi; exact ⟨xi, rfl⟩
  | cons p2 rest ih =>
    intro p1 b xi
    obtain ⟨xi1, hstep⟩ := crossStepChecked_ok point p1 p2 b xi
    obtain ⟨xi2, hrest⟩ := ih p2 (crossStep point p1 p2 b) xi1
    refine ⟨xi2, ?_⟩
    show (crossStepChecked point p1 p2 (b, xi)).bind (containsGoChecked point p2 rest) = _
    rw [hstep]
    exact hrest

/-- C10: `Polygon.contains_point` is total for every polygon with at least
one vertex: the branch reading `xinters` (and the division defining it) is
only reachable when `p1y != p2y`, since the y-range guard is unsatisfiable
for a horizontal edge; so `xinters` is always assigned before use, the
divisor is never zero, and the checked evaluation returns the plain result
without a `NameError`, `ZeroDivisionError` or `IndexError`. -/
theorem contains_point_checked_ok (poly : Polygon) (point : Point)
    (h : poly.coordinates ≠ []) :
    poly.contains_point_checked point = Except.ok (poly.contains_point point) := by
  obtain ⟨coords⟩ := poly
  cases coords with
  | nil => exact absurd rfl h
  | cons c0 rest =>
    show (containsGoChecked point c0 (rest ++ [c0]) (false, none)).map Prod.fst = _
    obtain ⟨xi2, hgo⟩ := containsGoChecked_ok point (rest ++ [c0]) c0 false none
    rw [hgo]
    rfl

/-- Witness for C10 on a concrete square and point. -/
theorem contains_point_checked_ok_witness :
    Polygon.contains_point_checked ⟨[(0, 0), (4, 0), (4, 4), (0, 4)]⟩ ⟨2, 2⟩ =
      Except.ok (Polygon.contains_point ⟨[(0, 0), (4, 0), (4, 4), (0, 4)]⟩ ⟨2, 2⟩) :=
  contains_point_checked_ok ⟨[(0, 0), (4, 0), (4, 4), (0, 4)]⟩ ⟨2, 2⟩ (by decide)

/-- C2: `point_in_any_polygon` is true iff the point is non-null and
`Polygon.contains_point` holds for at least one polygon of the list (tried
in order with a short-circuiting `any`); a null point always yields `false`
and never an error. -/
theorem point_in_any_polygon_spec (point : Option Point) (polygons : List Polygon) :
    (point_in_any_polygon point polygons = true ↔
      ∃ p, point = some p ∧ ∃ polygon ∈ polygons, polygon.contains_point p = true) ∧
    point_in_any_polygon none polygons = false := by
  constructor
  · cases point with
    | none => simp [point_in_any_polygon]
    | some p => simp [point_in_any_polygon, List.any_eq_true]
  · rfl

/-- C9: the annotation pipeline maps each of the N input rows, in order, to
itself extended with exactly one boolean column, so the output has N rows in
the input order, the original columns unchanged, and the helper point column
dropped. -/
theorem main_pipeline_frame (α : Type) (gpsCol : α → Option String)
    (zoneTest : Option PointF → Bool) (rows : List α) :
    main_pipeline gpsCol zoneTest rows =
        rows.map (fun r => (r, zoneTest (parse_client_coordinates (gpsCol r)))) ∧
      (main_pipeline gpsCol zoneTest rows).map Prod.fst = rows ∧
      (main_pipeline gpsCol zoneTest rows).length = rows.length := by
  have hmain : main_pipeline gpsCol zoneTest rows =
      rows.map (fun r => (r, zoneTest (parse_client_coordinates (gpsCol r)))) := by
    unfold main_pipeline drop_point_column add_inside_zone_column add_point_column
    rw [List.map_map, List.map_map]
    rfl
  refine ⟨hmain, ?_, ?_⟩
  · rw [hmain, List.map_map]
    exact List.map_id' rows
  · rw [hmain, List.length_map]

/-- C3: the coordinate string "12.5,34.2", read as "latitude,longitude",
parses with the order swapped: the resulting Point has lon = 34.2 and
lat = 12.5 (kept exact as rationals 171/5 and 25/2). -/
theorem parse_client_coordinates_swaps_order :
    parse_client_coordinates (some "12.5,34.2") =
      some ⟨PyFloat.finite (171 / 5), PyFloat.finite (25 / 2)⟩ := by
  have hsplit : splitOnChar ',' "12.5,34.2".toList = ["12.5".toList, "34.2".toList] := by
    decide
  have hlat : pyFloatOfChars "12.5".toList = some (PyFloat.finite (25 / 2)) := by
    have h0 : pyFloatOfChars "12.5".toList =
        (pyDecimal "12.5".toList).map
          (fun q => if doubleOverflowThreshold ≤ q then PyFloat.inf else PyFloat.finite q) :=
      rfl
    have h1 : pyDecimal "12.5".toList =
        some (((12 : ℕ) : ℚ) + ((5 : ℕ) : ℚ) / (10 : ℚ) ^ 1) := rfl
    have hT : ¬ doubleOverflowThreshold ≤ ((12 : ℕ) : ℚ) + ((5 : ℕ) : ℚ) / (10 : ℚ) ^ 1 := by
      norm_num [doubleOverflowThreshold]
    have hval : ((12 : ℕ) : ℚ) + ((5 : ℕ) : ℚ) / (10 : ℚ) ^ 1 = 25 / 2 := by norm_num
    rw [h0, h1, Option.map_some', if_neg hT, hval]
  have hlon : pyFloatOfChars "34.2".toList = some (PyFloat.finite (171 / 5)) := by
    have h0 : pyFloatOfChars "34.2".toList =
        (pyDecimal "34.2".toList).map
          (fun q => if doubleOverflowThreshold ≤ q then PyFloat.inf else PyFloat.finite q) :=
      rfl
    have h1 : pyDecimal "34.2".toList =
        some (((34 : ℕ) : ℚ) + ((2 : ℕ) : ℚ) / (10 : ℚ) ^ 1) := rfl
    have hT : ¬ doubleOverflowThreshold ≤ ((34 : ℕ) : ℚ) + ((2 : ℕ) : ℚ) / (10 : ℚ) ^ 1 := by
      norm_num [doubleOverflowThreshold]
    have hval : ((34 : ℕ) : ℚ) + ((2 : ℕ) : ℚ) / (10 : ℚ) ^ 1 = 171 / 5 := by norm_num
    rw [h0, h1, Option.map_some', if_neg hT, hval]
  simp only [parse_client_coordinates, hsplit, hlat, hlon]

/-- C4: `parse_client_coordinates` is a total function into an optional
result (it never raises): a missing value, the empty string, a non-numeric
token, any token count other than two, and any unconvertible token all yield
`none`. -/
theorem parse_client_coordinates_total_on_failures :
    parse_client_coordinates none = none ∧
    parse_client_coordinates (some "") = none ∧
    parse_client_coordinates (some "abc") = none ∧
    (∀ s : String, (splitOnChar ',' s.toList).length ≠ 2 →
      parse_client_coordinates (some s) = none) ∧
    (∀ s : String, ∀ t ∈ splitOnChar ',' s.toList, pyFloatOfChars t = none →
      parse_client_coordinates (some s) = none) := by
  refine ⟨rfl, by decide, by decide, ?_, ?_⟩
  · intro s h
    rcases hsp : splitOnChar ',' s.toList with _ | ⟨a, _ | ⟨b, _ | ⟨c, tl⟩⟩⟩
    · simp only [parse_client_coordinates, hsp]
    · simp only [parse_client_coordinates, hsp]
    · rw [hsp] at h
      exact absurd rfl h
    · simp only [parse_client_coordinates, hsp]
  · intro s t ht hnone
    rcases hsp : splitOnChar ',' s.toList with _ | ⟨a, _ | ⟨b, _ | ⟨c, tl⟩⟩⟩
    · simp only [parse_client_coordinates, hsp]
    · simp only [parse_client_coordinates, hsp]
    · rw [hsp] at ht
      simp only [List.mem_cons, List.not_mem_nil, or_false] at ht
      rcases ht with rfl | rfl
      · simp only [parse_client_coordinates, hsp, hnone]
      · cases hfa : pyFloatOfChars a <;>
          simp only [parse_client_coordinates, hsp, hfa, hnone]
    · simp only [parse_client_coordinates, hsp]

/-- Witness for C4: a three-token string and a string with an unconvertible
token both parse to `none`. -/
theorem parse_client_coordinates_failures_witness :
    parse_client_coordinates (some "1,2,3") = none ∧
    parse_client_coordinates (some "5.0,x") = none :=
  ⟨parse_client_coordinates_total_on_failures.2.2.2.1 "1,2,3" (by decide),
   parse_client_coordinates_total_on_failures.2.2.2.2 "5.0,x" "x".toList
     (by decide) (by decide)⟩

/-- C7: every polygon kept by `load_kml_polygons` has at least 3 vertices. -/
theorem load_kml_polygons_min_vertices (boundaries : List (Option (List Char)))
    (polygon : List (PyFloat × PyFloat)) (h : polygon ∈ load_kml_polygons boundaries) :
    3 ≤ polygon.length := by
  unfold load_kml_polygons at h
  rw [List.mem_filterMap] at h
  obtain ⟨ob, -, hf⟩ := h
  cases ob with
  | none => exact Option.noConfusion hf
  | some text =>
    simp only at hf
    split_ifs at hf with h1 h2
    · injection hf with hf2
      rw [← hf2]
      exact h2

/-- Witness for C7: a square ring loaded from a concrete boundary string has
at least 3 vertices. -/
theorem load_kml_polygons_min_vertices_witness :
    3 ≤ (parse_kml_coordinates "0,0 4,0 4,4 0,4".toList).length := by
  have hload : load_kml_polygons [some ("0,0 4,0 4,4 0,4".toList)] =
      [parse_kml_coordinates "0,0 4,0 4,4 0,4".toList] := rfl
  exact load_kml_polygons_min_vertices [some ("0,0 4,0 4,4 0,4".toList)]
    (parse_kml_coordinates "0,0 4,0 4,4 0,4".toList)
    (hload ▸ List.mem_singleton.mpr rfl)

/-- C8 counterexample: the input "inf,nan" is accepted by the parser and
produces a non-null Point whose components are not finite, refuting the
claim that every parsed Point has finite components; moreover an ordinary
decimal token whose value overflows the double range, such as "1e999",
also converts to an infinity, so "1e999,0" produces a non-finite Point with
no special literal present. -/
theorem parse_finite_counterexample :
    parse_client_coordinates (some "inf,nan") = some ⟨PyFloat.nan, PyFloat.inf⟩ ∧
      PyFloat.isFinite PyFloat.nan = false ∧ PyFloat.isFinite PyFloat.inf = false ∧
      pyFloatOfChars "1e999".toList = some PyFloat.inf ∧
      parse_client_coordinates (some "1e999,0") = some ⟨PyFloat.finite 0, PyFloat.inf⟩ := by
  have hbig : pyFloatOfChars "1e999".toList = some PyFloat.inf := by
    have h0 : pyFloatOfChars "1e999".toList =
        (pyDecimal "1e999".toList).map
          (fun q => if doubleOverflowThreshold ≤ q then PyFloat.inf else PyFloat.finite q) :=
      rfl
    have h1 : pyDecimal "1e999".toList =
        some (((1 : ℕ) : ℚ) * (10 : ℚ) ^ (999 : ℕ)) := rfl
    have hT : doubleOverflowThreshold ≤ ((1 : ℕ) : ℚ) * (10 : ℚ) ^ (999 : ℕ) := by
      norm_num [doubleOverflowThreshold]
    rw [h0, h1, Option.map_some', if_pos hT]
  have hzero : pyFloatOfChars "0".toList = some (PyFloat.finite 0) := by
    have h0 : pyFloatOfChars "0".toList =
        (pyDecimal "0".toList).map
          (fun q => if doubleOverflowThreshold ≤ q then PyFloat.inf else PyFloat.finite q) :=
      rfl
    have h1 : pyDecimal "0".toList = some ((0 : ℕ) : ℚ) := rfl
    have hT : ¬ doubleOverflowThreshold ≤ ((0 : ℕ) : ℚ) := by
      norm_num [doubleOverflowThreshold]
    have hval : ((0 : ℕ) : ℚ) = 0 := by norm_num
    rw [h0, h1, Option.map_some', if_neg hT, hval]
  have hsplit : splitOnChar ',' "1e999,0".toList = ["1e999".toList, "0".toList] := by decide
  refine ⟨by decide, rfl, rfl, hbig, ?_⟩
  simp only [parse_client_coordinates, hsplit, hbig, hzero]

/-- A successful `float` conversion of a token that is neither a special
inf/infinity/nan literal nor an overflowing decimal yields a finite value. -/
lemma pyFloatOfChars_finite_of_not_special (t : List Char) (x : PyFloat)
    (hx : pyFloatOfChars t = some x) (hs : isSpecialFloatLit t = false)
    (hov : overflowsDouble t = false) :
    x.isFinite = true := by
  simp only [isSpecialFloatLit, decide_eq_false_iff_not] at hs
  push_neg at hs
  obtain ⟨hs1, hs2, hs3⟩ := hs
  simp only [pyFloatOfChars] at hx
  rw [if_neg (not_or_intro hs1 hs2), if_neg hs3] at hx
  rw [Option.map_eq_some'] at hx
  obtain ⟨q, hq, hfq⟩ := hx
  simp only [overflowsDouble, hq, decide_eq_false_iff_not] at hov
  rw [if_neg hov] at hfq
  rw [← hfq]
  rfl

/-- C8 amended: every non-null Point produced by `parse_client_coordinates`
has finite components, provided no comma-separated token of the input is one
of Python's special float literals (optionally signed inf / infinity / nan,
case-insensitive) and no token is a decimal whose magnitude reaches the
double overflow boundary; non-finite components arise only from special
literals or overflowing decimals. -/
theorem parse_finite_unless_special (s : String) (pt : PointF)
    (hp : parse_client_coordinates (some s) = some pt)
    (hs : ∀ t ∈ splitOnChar ',' s.toList,
      isSpecialFloatLit t = false ∧ overflowsDouble t = false) :
    pt.lon.isFinite = true ∧ pt.lat.isFinite = true := by
  rcases hsp : splitOnChar ',' s.toList with _ | ⟨a, _ | ⟨b, _ | ⟨c, tl⟩⟩⟩
  · simp only [parse_client_coordinates, hsp] at hp
    exact Option.noConfusion hp
  · simp only [parse_client_coordinates, hsp] at hp
    exact Option.noConfusion hp
  · have hamem : a ∈ splitOnChar ',' s.toList := by
      rw [hsp]; exact List.mem_cons_self _ _
    have hbmem : b ∈ splitOnChar ',' s.toList := by
      rw [hsp]; exact List.mem_cons_of_mem _ (List.mem_cons_self _ _)
    simp only [parse_client_coordinates, hsp] at hp
    cases hfa : pyFloatOfChars a with
    | none =>
      rw [hfa] at hp
      exact Option.noConfusion hp
    | some xa =>
      cases hfb : pyFloatOfChars b with
      | none =>
        rw [hfa, hfb] at hp
        exact Option.noConfusion hp
      | some xb =>
        rw [hfa, hfb] at hp
        have hp2 := Option.some.inj hp
        rw [← hp2]
        exact ⟨pyFloatOfChars_finite_of_not_special b xb hfb
            (hs b hbmem).1 (hs b hbmem).2,
          pyFloatOfChars_finite_of_not_special a xa hfa
            (hs a hamem).1 (hs a hamem).2⟩
  · simp only [parse_client_coordinates, hsp] at hp
    exact Option.noConfusion hp

/-- Witness for the amended C8 on a concrete plain-numeral input. -/
theorem parse_finite_unless_special_witness :
    (PyFloat.finite 9).isFinite = true ∧ (PyFloat.finite 7).isFinite = true := by
  have hsplit : splitOnChar ',' "7,9".toList = ["7".toList, "9".toList] := by decide
  have h7 : pyFloatOfChars "7".toList = some (PyFloat.finite 7) := by
    have h0 : pyFloatOfChars "7".toList =
        (pyDecimal "7".toList).map
          (fun q => if doubleOverflowThreshold ≤ q then PyFloat.inf else PyFloat.finite q) :=
      rfl
    have h1 : pyDecimal "7".toList = some ((7 : ℕ) : ℚ) := rfl
    have hT : ¬ doubleOverflowThreshold ≤ ((7 : ℕ) : ℚ) := by
      norm_num [doubleOverflowThreshold]
    have hval : ((7 : ℕ) : ℚ) = 7 := by norm_num
    rw [h0, h1, Option.map_some', if_neg hT, hval]
  have h9 : pyFloatOfChars "9".toList = some (PyFloat.finite 9) := by
    have h0 : pyFloatOfChars "9".toList =
        (pyDecimal "9".toList).map
          (fun q => if doubleOverflowThreshold ≤ q then PyFloat.inf else PyFloat.finite q) :=
      rfl
    have h1 : pyDecimal "9".toList = some ((9 : ℕ) : ℚ) := rfl
    have hT : ¬ doubleOverflowThreshold ≤ ((9 : ℕ) : ℚ) := by
      norm_num [doubleOverflowThreshold]
    have hval : ((9 : ℕ) : ℚ) = 9 := by norm_num
    rw [h0, h1, Option.map_some', if_neg hT, hval]
  have hov7 : overflowsDouble "7".toList = false := by
    have h1 : pyDecimal (signSplit (stripWs "7".toList)).2 = some ((7 : ℕ) : ℚ) := rfl
    simp only [overflowsDouble, h1]
    exact decide_eq_false (by norm_num [doubleOverflowThreshold])
  have hov9 : overflowsDouble "9".toList = false := by
    have h1 : pyDecimal (signSplit (stripWs "9".toList)).2 = some ((9 : ℕ) : ℚ) := rfl
    simp only [overflowsDouble, h1]
    exact decide_eq_false (by norm_num [doubleOverflowThreshold])
  have hp : parse_client_coordinates (some "7,9") =
      some ⟨PyFloat.finite 9, PyFloat.finite 7⟩ := by
    simp only [parse_client_coordinates, hsplit, h7, h9]
  have hs : ∀ t ∈ splitOnChar ',' "7,9".toList,
      isSpecialFloatLit t = false ∧ overflowsDouble t = false := by
    intro t ht
    rw [hsplit] at ht
    simp only [List.mem_cons, List.not_mem_nil, or_false] at ht
    rcases ht with rfl | rfl
    · exact ⟨by decide, hov7⟩
    · exact ⟨by decide, hov9⟩
  exact parse_finite_unless_special "7,9" ⟨PyFloat.finite 9, PyFloat.finite 7⟩ hp hs
